import Mathlib

/-!
Verification of `generate_pdf.py` (DocuQuery): a Markdown → HTML → PDF
pipeline.  The HTML tree, the document-order element search, the text
flattening and the drawing-command dispatch of `create_pdf` are embedded
below; file handling and the external Markdown renderer are modelled where
noted.
-/

set_option maxHeartbeats 1000000

mutual

/-- A parsed HTML node as produced by BeautifulSoup: either a text node or
an element with a tag name and children (`NodeList`). -/
inductive Node where
| text : String → Node
| elem : String → NodeList → Node

inductive NodeList where
| nil : NodeList
| cons : Node → NodeList → NodeList

end

/-- Build a `NodeList` from a plain list of nodes. -/
def NodeList.ofList : List Node → NodeList
| [] => .nil
| n :: ns => .cons n (ofList ns)

/-- Tag name of a node (`""` for a text node), mirroring `element.name`. -/
def Node.tag : Node → String
| .text _ => ""
| .elem t _ => t

mutual

/- `element.get_text()`: concatenation of all descendant text, in document
order, with markup stripped. -/
def getText : Node → String
| .text s => s
| .elem _ cs => getTextL cs
termination_by structural n => n

def getTextL : NodeList → String
| .nil => ""
| .cons c cs => getText c ++ getTextL cs
termination_by structural l => l

end

mutual

/- `soup.find_all(tags)` restricted to one subtree: all elements whose tag
is in `tags`, in document order (pre-order, an element before its
descendants). -/
def findAll (tags : List String) : Node → List Node
| .text _ => []
| .elem t cs => (if tags.contains t then [Node.elem t cs] else []) ++ findAllL tags cs
termination_by structural n => n

def findAllL (tags : List String) : NodeList → List Node
| .nil => []
| .cons c cs => findAll tags c ++ findAllL tags cs
termination_by structural l => l

end

/-- Python `str.strip()`: remove leading and trailing whitespace. -/
def pyStrip (s : String) : String :=
  ⟨((s.data.dropWhile Char.isWhitespace).reverse.dropWhile Char.isWhitespace).reverse⟩

/-- The fixed allow-list passed to `soup.find_all` in `create_pdf`. -/
def allowList : List String := ["h1", "h2", "h3", "p", "li", "code", "pre"]

/-- A drawing command issued to the FPDF document builder. -/
inductive Cmd where
| addPage : Cmd
| setFont : String → Nat → Cmd
| ln : Nat → Cmd
| cell : Nat → Nat → String → Cmd
| multiCell : Nat → Nat → String → Cmd
deriving DecidableEq, Repr

/-- The loop body of `create_pdf`: the drawing commands issued for one
element returned by `find_all`, mirroring the tag dispatch of the source. -/
def emitElement (e : Node) : List Cmd :=
  if e.tag = "h1" ∨ e.tag = "h2" ∨ e.tag = "h3" then
    [Cmd.setFont "DejaVu" (if e.tag = "h1" then 16 else if e.tag = "h2" then 14 else 12),
     Cmd.ln 10,
     Cmd.multiCell 0 10 (pyStrip (getText e))]
  else if e.tag = "p" then
    [Cmd.setFont "DejaVu" 12, Cmd.ln 5, Cmd.multiCell 0 10 (pyStrip (getText e))]
  else if e.tag = "li" then
    [Cmd.setFont "DejaVu" 12, Cmd.ln 2, Cmd.cell 5 10 "â€¢", Cmd.multiCell 0 10 (pyStrip (getText e))]
  else if e.tag = "code" ∨ e.tag = "pre" then
    [Cmd.setFont "DejaVu" 10, Cmd.ln 5, Cmd.multiCell 0 8 (pyStrip (getText e))]
  else []

/-- All drawing commands of `create_pdf` on a parsed document: one page
added up front, the initial `set_font('DejaVu', size=12)`, then the loop
over `soup.find_all(allowList)`. -/
def createPdfCmds (soup : NodeList) : List Cmd :=
  [Cmd.addPage, Cmd.setFont "DejaVu" 12]
    ++ ((findAllL allowList soup).map emitElement).flatten

/-- The texts of the `multi_cell` text blocks of a command sequence, in
order. -/
def multiCellTexts : List Cmd → List String
| [] => []
| Cmd.multiCell _ _ t :: cs => t :: multiCellTexts cs
| _ :: cs => multiCellTexts cs

/-- Font size per element kind (tag), as set by the dispatch of
`create_pdf` right before the element's text block is written. -/
def sizeFor (t : String) : Nat :=
  if t = "h1" then 16
  else if t = "h2" then 14
  else if t = "code" ∨ t = "pre" then 10
  else 12

/-- Vertical spacing (`pdf.ln`) inserted before each element's text
block. -/
def spaceFor (t : String) : Nat :=
  if t = "h1" ∨ t = "h2" ∨ t = "h3" then 10
  else if t = "li" then 2
  else 5

/-- Whether a command sequence contains a (bullet) `cell` command. -/
def hasCell : List Cmd → Bool
| [] => false
| Cmd.cell _ _ _ :: _ => true
| _ :: cs => hasCell cs

/-- The text-block writes of a command sequence together with the font in
effect when each was issued: folds over the commands tracking the current
(family, size), recording `(family, size, text)` at each `multi_cell`. -/
def tracedWrites (fam : String) (sz : Nat) : List Cmd → List (String × Nat × String)
| [] => []
| Cmd.setFont f s :: cs => tracedWrites f s cs
| Cmd.multiCell _ _ t :: cs => (fam, sz, t) :: tracedWrites fam sz cs
| _ :: cs => tracedWrites fam sz cs

/-- Append a text block to the current (most recent) page; a no-op when no
page exists yet. -/
def appendCur : List (List String) → String → List (List String)
| [], _ => []
| p :: ps, t => (p ++ [t]) :: ps

/-- The mutable state of the FPDF document builder: current font and the
pages written so far (most recent page first; each page lists its text
blocks in order). -/
structure PdfState where
  fontFamily : String
  fontSize : Nat
  rpages : List (List String)
deriving DecidableEq, Repr

/-- Builder state before any command: no font selected, no page. -/
def initState : PdfState := ⟨"", 0, []⟩

/-- One drawing command applied to the builder state. -/
def step (s : PdfState) : Cmd → PdfState
| Cmd.addPage => { s with rpages := [] :: s.rpages }
| Cmd.setFont f sz => { s with fontFamily := f, fontSize := sz }
| Cmd.ln _ => s
| Cmd.cell _ _ t => { s with rpages := appendCur s.rpages t }
| Cmd.multiCell _ _ t => { s with rpages := appendCur s.rpages t }

/-- Run a command sequence on a fresh builder. -/
def runCmds (cmds : List Cmd) : PdfState := cmds.foldl step initState

/-- Extracted text content per page, in page order. -/
def pagesOf (s : PdfState) : List (List String) := s.rpages.reverse

/-- The error kinds named by the spec. -/
inductive PdfError where
| fileAccessError : PdfError
| decodingError : PdfError
| fontLoadError : PdfError
| renderError : PdfError
deriving DecidableEq, Repr

/-- Environment facts a run depends on: whether the hardcoded font file is
present and whether the output path is writable. -/
structure Config where
  fontOk : Bool
  outWritable : Bool

/-- Modelled from the spec: `read_markdown_file` (the Loader). Python's
`open(...).read()` is outside src scope; per the spec it returns the whole
decoded file and fails with `FileAccessError` when the path is missing.
The filesystem is an association list of path to decoded content. -/
def readMarkdownFile (fs : List (String × String)) (p : String) :
    Except PdfError String :=
  match fs.lookup p with
  | none => Except.error PdfError.fileAccessError
  | some c => Except.ok c

/-- Modelled from the spec: one full run of `main`, parameterized by the
external Markdown renderer plus HTML parser (`render` maps the input text
to the parsed tree of `convert_markdown_to_html`'s output; both libraries
are outside src scope). Returns the result and the list of file writes
performed: per the spec the builder only touches the destination path at
the single final `pdf.output` call, `PDF()` fails with `FontLoadError`
when the hardcoded font file is absent, and `pdf.output` fails with
`RenderError` when the output path is not writable. -/
def runPipeline (render : String → NodeList) (cfg : Config)
    (fs : List (String × String)) (inPath outPath : String) :
    Except PdfError Unit × List (String × PdfState) :=
  match readMarkdownFile fs inPath with
  | Except.error e => (Except.error e, [])
  | Except.ok content =>
    if cfg.fontOk then
      if cfg.outWritable then
        (Except.ok (), [(outPath, runCmds (createPdfCmds (render content)))])
      else (Except.error PdfError.renderError, [])
    else (Except.error PdfError.fontLoadError, [])

/-- Modelled from the spec: the parsed HTML that the off-the-shelf
Markdown renderer (external `markdown` library, outside src scope)
produces for the concrete scenario input
`"# Title\n\nSome text.\n\n- item one\n- item two\n"`, namely
`<h1>Title</h1>`, `<p>Some text.</p>`, and a `<ul>` wrapping the two
`<li>` items, with whitespace text between the blocks. -/
def scenarioSoup : NodeList :=
  NodeList.ofList
    [Node.elem "h1" (NodeList.ofList [Node.text "Title"]),
     Node.text "\n",
     Node.elem "p" (NodeList.ofList [Node.text "Some text."]),
     Node.text "\n",
     Node.elem "ul" (NodeList.ofList
       [Node.text "\n",
        Node.elem "li" (NodeList.ofList [Node.text "item one"]),
        Node.text "\n",
        Node.elem "li" (NodeList.ofList [Node.text "item two"]),
        Node.text "\n"])]

/-- The `<h1>Title</h1>` element of the scenario tree. -/
def scenarioH1 : Node := Node.elem "h1" (NodeList.ofList [Node.text "Title"])

/-- The `<p>Some text.</p>` element of the scenario tree. -/
def scenarioP : Node := Node.elem "p" (NodeList.ofList [Node.text "Some text."])

/-- The first `<li>` element of the scenario tree. -/
def scenarioLi1 : Node := Node.elem "li" (NodeList.ofList [Node.text "item one"])

/-- The second `<li>` element of the scenario tree. -/
def scenarioLi2 : Node := Node.elem "li" (NodeList.ofList [Node.text "item two"])

mutual

/-- `Occurs n t`: the node `n` is a subtree of the tree `t` (including `t`
itself), i.e. `n` occurs somewhere in the parsed document below `t`. -/
inductive Occurs : Node → Node → Prop where
| refl (t : Node) : Occurs t t
| child {n : Node} {tg : String} {cs : NodeList} :
    OccursL n cs → Occurs n (Node.elem tg cs)

/-- `OccursL n l`: the node `n` occurs in one of the trees of the forest
`l`. -/
inductive OccursL : Node → NodeList → Prop where
| head {n c : Node} {cs : NodeList} : Occurs n c → OccursL n (NodeList.cons c cs)
| tail {n c : Node} {cs : NodeList} : OccursL n cs → OccursL n (NodeList.cons c cs)

end

theorem tags_of_contains (e : Node) (h : allowList.contains e.tag = true) :
    e.tag = "h1" ∨ e.tag = "h2" ∨ e.tag = "h3" ∨ e.tag = "p" ∨ e.tag = "li"
      ∨ e.tag = "code" ∨ e.tag = "pre" := by
  simpa [allowList, List.contains] using h

mutual

theorem findAll_tags (tags : List String) :
    ∀ (n : Node), ∀ e ∈ findAll tags n, tags.contains e.tag = true
| Node.text _, e, h => by simp [findAll] at h
| Node.elem t cs, e, h => by
    rw [findAll] at h
    rcases List.mem_append.mp h with h1 | h2
    · simp at h1
      obtain ⟨ht, rfl⟩ := h1
      simpa [Node.tag] using ht
    · exact findAllL_tags tags cs e h2

theorem findAllL_tags (tags : List String) :
    ∀ (l : NodeList), ∀ e ∈ findAllL tags l, tags.contains e.tag = true
| NodeList.nil, e, h => by simp [findAllL] at h
| NodeList.cons c cs, e, h => by
    rw [findAllL] at h
    rcases List.mem_append.mp h with h1 | h2
    · exact findAll_tags tags c e h1
    · exact findAllL_tags tags cs e h2

end

theorem emitElement_eq (e : Node) (h : allowList.contains e.tag = true) :
    emitElement e =
      [Cmd.setFont "DejaVu" (sizeFor e.tag), Cmd.ln (spaceFor e.tag)]
        ++ (if e.tag = "li" then [Cmd.cell 5 10 "â€¢"] else [])
        ++ [Cmd.multiCell 0 (if e.tag = "code" ∨ e.tag = "pre" then 8 else 10)
              (pyStrip (getText e))] := by
  rcases tags_of_contains e h with h' | h' | h' | h' | h' | h' | h' <;>
    simp [emitElement, sizeFor, spaceFor, h']

theorem multiCellTexts_append (a b : List Cmd) :
    multiCellTexts (a ++ b) = multiCellTexts a ++ multiCellTexts b := by
  induction a with
  | nil => rfl
  | cons c cs ih => cases c <;> simp [multiCellTexts, ih]

theorem emit_multiCellTexts (e : Node) (h : allowList.contains e.tag = true) :
    multiCellTexts (emitElement e) = [pyStrip (getText e)] := by
  rw [emitElement_eq e h]
  by_cases hli : e.tag = "li" <;> simp [hli, multiCellTexts, multiCellTexts_append]

theorem flatten_texts : ∀ (l : List Node),
    (∀ e ∈ l, allowList.contains e.tag = true) →
    multiCellTexts (l.map emitElement).flatten = l.map (fun e => pyStrip (getText e))
| [], _ => rfl
| e :: es, h => by
    rw [List.map_cons, List.flatten_cons, multiCellTexts_append,
      emit_multiCellTexts e (h e (List.mem_cons_self e es)), List.map_cons,
      flatten_texts es (fun x hx => h x (List.mem_cons_of_mem e hx))]
    rfl

theorem tracedWrites_emit (e : Node) (h : allowList.contains e.tag = true)
    (rest : List Cmd) (f : String) (s : Nat) :
    tracedWrites f s (emitElement e ++ rest) =
      ("DejaVu", sizeFor e.tag, pyStrip (getText e))
        :: tracedWrites "DejaVu" (sizeFor e.tag) rest := by
  rw [emitElement_eq e h]
  by_cases hli : e.tag = "li" <;> simp [hli, tracedWrites]

theorem traced_all : ∀ (l : List Node),
    (∀ e ∈ l, allowList.contains e.tag = true) → ∀ (f : String) (s : Nat),
    tracedWrites f s (l.map emitElement).flatten =
      l.map (fun e => ("DejaVu", sizeFor e.tag, pyStrip (getText e)))
| [], _, _, _ => rfl
| e :: es, h, f, s => by
    rw [List.map_cons, List.flatten_cons,
      tracedWrites_emit e (h e (List.mem_cons_self e es)),
      traced_all es (fun x hx => h x (List.mem_cons_of_mem e hx)), List.map_cons]

theorem appendCur_length (ps : List (List String)) (t : String) :
    (appendCur ps t).length = ps.length := by
  cases ps <;> simp [appendCur]

theorem rpages_le_foldl (cmds : List Cmd) :
    ∀ s : PdfState, s.rpages.length ≤ (cmds.foldl step s).rpages.length := by
  induction cmds with
  | nil => intro s; exact le_refl _
  | cons c cs ih =>
    intro s
    refine le_trans ?_ (ih (step s c))
    cases c <;> simp [step, appendCur_length]

theorem one_page (soup : NodeList) :
    1 ≤ (runCmds (createPdfCmds soup)).rpages.length := by
  unfold runCmds createPdfCmds
  rw [List.cons_append, List.cons_append, List.nil_append,
    List.foldl_cons, List.foldl_cons]
  exact le_trans (by simp [step, initState]) (rpages_le_foldl _ _)

theorem scenario_found :
    findAllL allowList scenarioSoup = [scenarioH1, scenarioP, scenarioLi1, scenarioLi2] := rfl

mutual

theorem occurs_found (tags : List String) :
    ∀ (n t : Node), Occurs n t →
      ∃ u v, findAll tags t = u ++ (findAll tags n ++ v)
| _, _, Occurs.refl _ => ⟨[], [], by simp⟩
| n, _, @Occurs.child _ tg cs h => by
    obtain ⟨u, v, hu⟩ := occursL_found tags n cs h
    refine ⟨(if tags.contains tg then [Node.elem tg cs] else []) ++ u, v, ?_⟩
    rw [findAll, hu]
    simp

theorem occursL_found (tags : List String) :
    ∀ (n : Node) (l : NodeList), OccursL n l →
      ∃ u v, findAllL tags l = u ++ (findAll tags n ++ v)
| n, _, @OccursL.head _ c cs h => by
    obtain ⟨u, v, hu⟩ := occurs_found tags n c h
    refine ⟨u, v ++ findAllL tags cs, ?_⟩
    rw [findAllL, hu]
    simp
| n, _, @OccursL.tail _ c cs h => by
    obtain ⟨u, v, hu⟩ := occursL_found tags n cs h
    refine ⟨findAll tags c ++ u, v, ?_⟩
    rw [findAllL, hu]
    simp

end

/-- Claim C2: for the concrete scenario input
`"# Title\n\nSome text.\n\n- item one\n- item two\n"`, the pipeline
produces exactly the element sequence H1 "Title", Paragraph "Some text.",
ListItem "item one", ListItem "item two", and writes one H1-sized block,
one paragraph-sized block, and two bullet-prefixed list blocks, in that
order. -/
theorem claim2 :
    (findAllL allowList scenarioSoup).map (fun e => (Node.tag e, pyStrip (getText e)))
      = [("h1", "Title"), ("p", "Some text."), ("li", "item one"), ("li", "item two")]
    ∧ createPdfCmds scenarioSoup =
      [Cmd.addPage, Cmd.setFont "DejaVu" 12,
       Cmd.setFont "DejaVu" 16, Cmd.ln 10, Cmd.multiCell 0 10 "Title",
       Cmd.setFont "DejaVu" 12, Cmd.ln 5, Cmd.multiCell 0 10 "Some text.",
       Cmd.setFont "DejaVu" 12, Cmd.ln 2, Cmd.cell 5 10 "â€¢", Cmd.multiCell 0 10 "item one",
       Cmd.setFont "DejaVu" 12, Cmd.ln 2, Cmd.cell 5 10 "â€¢", Cmd.multiCell 0 10 "item two"] :=
  ⟨by decide, by decide⟩

/-- Claim C3: for every HTML input, the sequence of text blocks written by
`create_pdf` equals the document-order sequence of the stripped flattened
texts of the allow-listed elements h1, h2, h3, p, li, code, pre found by
`find_all`; no other element contributes a block of its own. -/
theorem claim3 (soup : NodeList) :
    multiCellTexts (createPdfCmds soup) =
      (findAllL allowList soup).map (fun e => pyStrip (getText e)) := by
  unfold createPdfCmds
  rw [multiCellTexts_append, flatten_texts _ (findAllL_tags allowList soup)]
  rfl

/-- Claim C4: for every element consumed by `create_pdf`, the font size
set before writing its text is determined by its kind: H1=16, H2=14,
H3=12, Paragraph=12, ListItem=12, Code=10; consequently the emitted sizes
satisfy H1 > H2 > H3. -/
theorem claim4 (soup : NodeList) (e : Node) (h : e ∈ findAllL allowList soup) :
    (emitElement e).head? = some (Cmd.setFont "DejaVu" (sizeFor e.tag))
      ∧ sizeFor "h1" = 16 ∧ sizeFor "h2" = 14 ∧ sizeFor "h3" = 12
      ∧ sizeFor "p" = 12 ∧ sizeFor "li" = 12 ∧ sizeFor "code" = 10 ∧ sizeFor "pre" = 10
      ∧ sizeFor "h1" > sizeFor "h2" ∧ sizeFor "h2" > sizeFor "h3" := by
  refine ⟨?_, by decide, by decide, by decide, by decide, by decide, by decide,
    by decide, by decide, by decide⟩
  rw [emitElement_eq e (findAllL_tags allowList soup e h)]
  rfl

/-- Claim C4 witness: the scenario H1 element is consumed and its emission
satisfies the size table. -/
theorem claim4_witness :
    scenarioH1 ∈ findAllL allowList scenarioSoup
      ∧ ((emitElement scenarioH1).head? = some (Cmd.setFont "DejaVu" (sizeFor scenarioH1.tag))
        ∧ sizeFor "h1" = 16 ∧ sizeFor "h2" = 14 ∧ sizeFor "h3" = 12
        ∧ sizeFor "p" = 12 ∧ sizeFor "li" = 12 ∧ sizeFor "code" = 10 ∧ sizeFor "pre" = 10
        ∧ sizeFor "h1" > sizeFor "h2" ∧ sizeFor "h2" > sizeFor "h3") := by
  have hm : scenarioH1 ∈ findAllL allowList scenarioSoup := by
    rw [scenario_found]; simp
  exact ⟨hm, claim4 scenarioSoup scenarioH1 hm⟩

/-- Claim C5: for every element consumed by `create_pdf`, the vertical
spacing inserted immediately before its text block is 10 units for each
heading, 5 for a paragraph, 2 for a list item, and 5 for a code
element. -/
theorem claim5 (soup : NodeList) (e : Node) (h : e ∈ findAllL allowList soup) :
    (emitElement e).get? 1 = some (Cmd.ln (spaceFor e.tag))
      ∧ spaceFor "h1" = 10 ∧ spaceFor "h2" = 10 ∧ spaceFor "h3" = 10
      ∧ spaceFor "p" = 5 ∧ spaceFor "li" = 2 ∧ spaceFor "code" = 5 ∧ spaceFor "pre" = 5 := by
  refine ⟨?_, by decide, by decide, by decide, by decide, by decide, by decide, by decide⟩
  rw [emitElement_eq e (findAllL_tags allowList soup e h)]
  rfl

/-- Claim C5 witness: the scenario paragraph element is consumed and its
emission satisfies the spacing table. -/
theorem claim5_witness :
    scenarioP ∈ findAllL allowList scenarioSoup
      ∧ ((emitElement scenarioP).get? 1 = some (Cmd.ln (spaceFor scenarioP.tag))
        ∧ spaceFor "h1" = 10 ∧ spaceFor "h2" = 10 ∧ spaceFor "h3" = 10
        ∧ spaceFor "p" = 5 ∧ spaceFor "li" = 2 ∧ spaceFor "code" = 5 ∧ spaceFor "pre" = 5) := by
  have hm : scenarioP ∈ findAllL allowList scenarioSoup := by
    rw [scenario_found]; simp
  exact ⟨hm, claim5 scenarioSoup scenarioP hm⟩

/-- Claim C6: for every consumed element, the emission contains a bullet
`cell` exactly when the element is a list item, and for a list item the
bullet is a small fixed-width cell drawn immediately before the item's
text block. -/
theorem claim6 (soup : NodeList) (e : Node) (h : e ∈ findAllL allowList soup) :
    (hasCell (emitElement e) = true ↔ e.tag = "li")
      ∧ (e.tag = "li" →
          emitElement e = [Cmd.setFont "DejaVu" 12, Cmd.ln 2, Cmd.cell 5 10 "â€¢",
            Cmd.multiCell 0 10 (pyStrip (getText e))]) := by
  have ht := findAllL_tags allowList soup e h
  constructor
  · constructor
    · intro hc
      by_contra hne
      rw [emitElement_eq e ht] at hc
      simp [hne, hasCell] at hc
    · intro hli
      rw [emitElement_eq e ht]
      simp [hli, hasCell]
  · intro hli
    rw [emitElement_eq e ht]
    simp [hli, sizeFor, spaceFor]

/-- Claim C6 witness: the first scenario list item is consumed, its
emission has the bullet cell immediately before the text block. -/
theorem claim6_witness :
    scenarioLi1 ∈ findAllL allowList scenarioSoup
      ∧ ((hasCell (emitElement scenarioLi1) = true ↔ scenarioLi1.tag = "li")
        ∧ (scenarioLi1.tag = "li" →
            emitElement scenarioLi1 = [Cmd.setFont "DejaVu" 12, Cmd.ln 2, Cmd.cell 5 10 "â€¢",
              Cmd.multiCell 0 10 (pyStrip (getText scenarioLi1))])) := by
  have hm : scenarioLi1 ∈ findAllL allowList scenarioSoup := by
    rw [scenario_found]; simp
  exact ⟨hm, claim6 scenarioSoup scenarioLi1 hm⟩

/-- Claim C7: if the input path does not exist, the run fails with
`FileAccessError` and no file write is performed; more generally, any run
that ends in an error performs no file write, because the pipeline only
touches the destination path in the single final output call. -/
theorem claim7 (render : String → NodeList) (cfg : Config)
    (fs : List (String × String)) (inPath outPath : String) :
    (fs.lookup inPath = none →
      runPipeline render cfg fs inPath outPath = (Except.error PdfError.fileAccessError, []))
    ∧ (∀ e, (runPipeline render cfg fs inPath outPath).1 = Except.error e →
        (runPipeline render cfg fs inPath outPath).2 = []) := by
  constructor
  · intro h
    simp [runPipeline, readMarkdownFile, h]
  · intro e he
    unfold runPipeline readMarkdownFile at he ⊢
    cases hl : fs.lookup inPath with
    | none => simp [hl]
    | some c =>
      cases hf : cfg.fontOk <;> cases hw : cfg.outWritable <;>
        simp [hl, hf, hw] at he ⊢

/-- Claim C7 witness: on an empty filesystem, reading the hardcoded input
path fails with `FileAccessError` and nothing is written. -/
theorem claim7_witness :
    ([] : List (String × String)).lookup "Project_Description.txt" = none
      ∧ runPipeline (fun _ => NodeList.nil) ⟨true, true⟩ []
          "Project_Description.txt" "project_description.pdf"
        = (Except.error PdfError.fileAccessError, []) :=
  ⟨rfl, (claim7 (fun _ => NodeList.nil) ⟨true, true⟩ []
    "Project_Description.txt" "project_description.pdf").1 rfl⟩

/-- Claim C8: every successful run writes exactly one output file, and the
written document has page count at least 1, since exactly one page is
added before any element is processed and the document is output exactly
once. -/
theorem claim8 (render : String → NodeList) (cfg : Config)
    (fs : List (String × String)) (inPath outPath : String)
    (h : (runPipeline render cfg fs inPath outPath).1 = Except.ok ()) :
    ∃ doc, (runPipeline render cfg fs inPath outPath).2 = [(outPath, doc)]
      ∧ 1 ≤ (pagesOf doc).length := by
  unfold runPipeline readMarkdownFile at h ⊢
  cases hl : fs.lookup inPath with
  | none => simp [hl] at h
  | some c =>
    cases hf : cfg.fontOk <;> cases hw : cfg.outWritable <;> simp [hl, hf, hw] at h ⊢
    simpa [pagesOf] using one_page (render c)

/-- Claim C8 witness: a successful concrete run writes one file with at
least one page. -/
theorem claim8_witness :
    (runPipeline (fun _ => NodeList.nil) ⟨true, true⟩ [("a", "b")] "a" "out").1 = Except.ok ()
      ∧ ∃ doc, (runPipeline (fun _ => NodeList.nil) ⟨true, true⟩ [("a", "b")] "a" "out").2
            = [("out", doc)]
          ∧ 1 ≤ (pagesOf doc).length :=
  ⟨rfl, claim8 (fun _ => NodeList.nil) ⟨true, true⟩ [("a", "b")] "a" "out" rfl⟩

/-- Claim C9: the pipeline is deterministic in the input: two runs on the
same input writing to different output paths produce documents with
identical extracted text content per page, in the same order. -/
theorem claim9 (render : String → NodeList) (cfg : Config)
    (fs : List (String × String)) (inPath out1 out2 : String)
    (d1 d2 : PdfState)
    (h1 : (runPipeline render cfg fs inPath out1).2 = [(out1, d1)])
    (h2 : (runPipeline render cfg fs inPath out2).2 = [(out2, d2)]) :
    pagesOf d1 = pagesOf d2 := by
  unfold runPipeline readMarkdownFile at h1 h2
  cases hl : fs.lookup inPath with
  | none => simp [hl] at h1
  | some c =>
    cases hf : cfg.fontOk <;> cases hw : cfg.outWritable <;> simp [hl, hf, hw] at h1 h2
    rw [← h1, ← h2]

/-- Claim C9 witness: a concrete run to two different output paths yields
the same per-page text content. -/
theorem claim9_witness :
    (runPipeline (fun _ => NodeList.nil) ⟨true, true⟩ [("a", "b")] "a" "o1").2
        = [("o1", ⟨"DejaVu", 12, [[]]⟩)]
      ∧ (runPipeline (fun _ => NodeList.nil) ⟨true, true⟩ [("a", "b")] "a" "o2").2
        = [("o2", ⟨"DejaVu", 12, [[]]⟩)]
      ∧ pagesOf ⟨"DejaVu", 12, [[]]⟩ = pagesOf ⟨"DejaVu", 12, [[]]⟩ :=
  ⟨rfl, rfl, claim9 (fun _ => NodeList.nil) ⟨true, true⟩ [("a", "b")] "a" "o1" "o2"
    ⟨"DejaVu", 12, [[]]⟩ ⟨"DejaVu", 12, [[]]⟩ rfl rfl⟩

/-- Claim C10 (implicit): every branch of the element dispatch sets the
font before writing its text block, so regardless of the builder's font
state entering the element loop, every text block is written with family
DejaVu at the size determined by that element's tag alone — font state
never leaks between elements. -/
theorem claim10 (f0 : String) (s0 : Nat) (soup : NodeList) :
    tracedWrites f0 s0 (createPdfCmds soup) =
      (findAllL allowList soup).map
        (fun e => ("DejaVu", sizeFor e.tag, pyStrip (getText e))) := by
  unfold createPdfCmds
  rw [List.cons_append, List.cons_append, List.nil_append]
  rw [show ∀ cs, tracedWrites f0 s0 (Cmd.addPage :: Cmd.setFont "DejaVu" 12 :: cs)
      = tracedWrites "DejaVu" 12 cs from fun cs => rfl]
  exact traced_all _ (findAllL_tags allowList soup) "DejaVu" 12
